import Mathlib

/-!
Verification of the SMX_DeepLearning job-scheduling core
(`Database-ActiveLearning/CFD_run_scheduling.py`, local controller, and
`Database-ActiveLearning/HPC_run_scheduling.py`, remote side).

The Python code is shallowly embedded: machine integers are `Int`/`Nat`,
floating-point CSV values are `ℚ`, fallible code returns `Except PyErr`,
remote side effects (qdel/qsub) and resource closes are returned as
explicit traces.
-/

namespace SMXSched

/-- Python exception kinds appearing in the embedded code paths.
`unboundLocal` stands for Python's UnboundLocalError (a NameError subclass)
raised when a local variable is referenced before assignment. -/
inductive PyErr where
  | runtimeError
  | valueError
  | nameError
  | typeError
  | indexError
  | authError
  | jobStatError
  | unboundLocal
  deriving DecidableEq, Repr

/-! ### Marker-protocol codec: `SimScheduling.search` (CFD_run_scheduling.py 289-336) -/

/-- Python-dict assignment `results[k] = v` on an association list:
overwrite an existing binding, else append. -/
def dictSet (d : List (String × String)) (k v : String) : List (String × String) :=
  if d.any (fun p => p.1 = k) then
    d.map (fun p => if p.1 = k then (k, v) else p)
  else d ++ [(k, v)]

/-- Python-dict lookup `results.get(k, None)`. -/
def dictGet (d : List (String × String)) (k : String) : Option String :=
  (d.find? (fun p => decide (p.1 = k))).map (·.2)

/-- The sentinel-marker table selected by the `search` argument
(CFD_run_scheduling.py 293-327).  Mode 0: submit; mode 1: monitor;
mode 2: restart decision. -/
def markers (mode : ℕ) : List (String × String) :=
  if mode = 0 then
    [("====JOB_IDS====", "jobid"), ("====WAIT_TIME====", "t_wait"),
     ("====JOB_STATUS====", "status"), ("====EXCEPTION====", "exception")]
  else if mode = 1 then
    [("====WAIT_TIME====", "t_wait"), ("====JOB_STATUS====", "status"),
     ("====EXCEPTION====", "exception")]
  else if mode = 2 then
    [("====JOB_IDS====", "jobid"), ("====WAIT_TIME====", "t_wait"),
     ("====JOB_STATUS====", "status"), ("====RESTART====", "ret_bool"),
     ("====EXCEPTION====", "exception")]
  else []

/-- The sentinel strings recognized in a given mode. -/
def markerKeys (mode : ℕ) : List String := (markers mode).map Prod.fst

/-- The scan loop of `search`: on a marker line, `out_lines[idx + 1]` is read
(IndexError when the marker is the final line), and scanning resumes at the
next line. -/
def searchGo (mk : List (String × String)) :
    List String → List (String × String) → Except PyErr (List (String × String))
  | [], acc => .ok acc
  | [line], acc =>
    match mk.find? (fun p => decide (p.1 = line)) with
    | some _ => .error .indexError
    | none => .ok acc
  | line :: next :: rest, acc =>
    match mk.find? (fun p => decide (p.1 = line)) with
    | some p => searchGo mk (next :: rest) (dictSet acc p.2 next)
    | none => searchGo mk (next :: rest) acc

/-- `SimScheduling.search(out_lines, search)`.  For a mode other than 0, 1, 2
no branch runs and `return results` hits an unbound local. -/
def search (mode : ℕ) (out_lines : List String) : Except PyErr (List (String × String)) :=
  if mode = 0 ∨ mode = 1 ∨ mode = 2 then searchGo (markers mode) out_lines []
  else .error .unboundLocal

/-! ### Small Python helpers -/

/-- Numeric value of a digit string (most significant first). -/
def digitsVal (ds : List Char) : ℕ :=
  ds.foldl (fun n c => 10 * n + (c.toNat - 48)) 0

/-- `str.strip()`: drop leading and trailing whitespace. -/
def stripWs (l : List Char) : List Char :=
  ((l.dropWhile Char.isWhitespace).reverse.dropWhile Char.isWhitespace).reverse

/-- Python `int(s)` on a decoded text field: optional sign, digits;
anything else raises ValueError (e.g. `int("1860.0")` fails). -/
def pyInt (s : String) : Except PyErr ℤ :=
  match stripWs s.toList with
  | '-' :: ds =>
    if ds ≠ [] ∧ ds.all Char.isDigit then .ok (-(digitsVal ds : ℤ)) else .error .valueError
  | '+' :: ds =>
    if ds ≠ [] ∧ ds.all Char.isDigit then .ok (digitsVal ds : ℤ) else .error .valueError
  | ds =>
    if ds ≠ [] ∧ ds.all Char.isDigit then .ok (digitsVal ds : ℤ) else .error .valueError

/-! ### Decode-and-dispatch: `SimScheduling.execute_remote_command` (240-285) -/

/-- The decoded marker-protocol payload handed back to the controller. -/
structure RemoteResult where
  jobid : Option String
  t_wait : ℤ
  status : Option String
  ret_bool : Option String
  deriving DecidableEq, Repr

/-- The exception-tag mapping of `execute_remote_command` (270-276): only the
literal tags "RuntimeError" and "ValueError" are recognized; every other tag
(including "JobStatError") raises `NameError('Search for exception from log
failed')`. -/
def excToError (e : String) : PyErr :=
  if e = "RuntimeError" then .runtimeError
  else if e = "ValueError" then .valueError
  else .nameError

/-- The decode part of `execute_remote_command` (262-276): run `search`,
convert `t_wait` with `int(...)` (default 0 when absent), then raise the
mapped error if an exception tag was decoded. -/
def decode_dispatch (mode : ℕ) (lines : List String) : Except PyErr RemoteResult :=
  match search mode lines with
  | .error e => .error e
  | .ok d =>
    match (match dictGet d "t_wait" with | none => Except.ok 0 | some s => pyInt s) with
    | .error e => .error e
    | .ok t =>
      match dictGet d "exception" with
      | some e => .error (excToError e)
      | none => .ok ⟨dictGet d "jobid", t, dictGet d "status", dictGet d "ret_bool"⟩

/-! ### Monitoring loop: `SimScheduling.jobmonitor` (200-236) -/

/-- The controller-side state threaded through the poll-and-wait loop. -/
structure MonState where
  t_wait : ℤ
  status : Option String
  running : Bool
  deriving DecidableEq, Repr

/-- Observable actions of one monitoring iteration. -/
inductive MonAction where
  | sleep (d : ℤ)
  | monitorCmd
  deriving DecidableEq, Repr

/-- One iteration of the `while running` loop of `jobmonitor`.  The
`sleep(t_wait-1770)` call sits outside the `try`, so a negative duration
raises an uncaught ValueError (Python's `time.sleep` rejects negative
arguments) before any command is issued.  Inside the `try`, RuntimeError is
the finished transition, ValueError and NameError are merely logged (state
unchanged), and any other exception propagates.  (The paramiko
Authentication/SSH handlers, which call `sys.exit`, are outside this model's
decode errors and cannot arise from `decode_dispatch`.) -/
def jobmonitorStep (remoteLines : List String) (st : MonState) :
    List MonAction × Except PyErr MonState :=
  if st.t_wait > 0 then
    if st.t_wait - 1770 < 0 then ([], .error .valueError)
    else
      ([.sleep (st.t_wait - 1770), .monitorCmd],
        match decode_dispatch 1 remoteLines with
        | .ok r => .ok ⟨r.t_wait, r.status, true⟩
        | .error .runtimeError => .ok ⟨0, some "F", false⟩
        | .error .valueError => .ok st
        | .error .nameError => .ok st
        | .error e => .error e)
  else ([], .ok ⟨st.t_wait, st.status, false⟩)

/-! ### Restart decision on the controller: `SimScheduling.localrun` (122-143) -/

/-- `eval(ret_bool)` on the decoded restart field: `eval(None)` raises
TypeError; `eval("True")`/`eval("False")` give the booleans. -/
def evalBool (s : Option String) : Except PyErr Bool :=
  match s with
  | none => .error .typeError
  | some v =>
    if v = "True" then .ok true
    else if v = "False" then .ok false
    else .error .nameError

/-- The restart block of `localrun`: execute the `job_restart` command with
search mode 2 and evaluate the decoded `ret_bool` text into the loop guard. -/
def restartStep (lines : List String) :
    Except PyErr (Option String × ℤ × Option String × Bool) :=
  match decode_dispatch 2 lines with
  | .error e => .error e
  | .ok r =>
    match evalBool r.ret_bool with
    | .error e => .error e
    | .ok b => .ok (r.jobid, r.t_wait, r.status, b)

/-- The stdout lines printed by `HPCScheduling.job_restart` on its successful
resubmit path (HPC_run_scheduling.py 630-646): log text, then the
JOB_IDS/JOB_STATUS/WAIT_TIME markers and, crucially, the sentinel
`====RETURN_BOOL====` before the boolean value. -/
def jobRestartOutputLines (idStr statusStr waitStr : String) : List String :=
  [String.mk (List.replicate 100 '-'),
   "Job re-submitted correctly with ID: " ++ idStr,
   "====JOB_IDS====", idStr,
   "====JOB_STATUS====", statusStr,
   "====WAIT_TIME====", waitStr,
   "====RETURN_BOOL====", "True"]

/-! ### Remote executor resource lifecycle: `execute_remote_command` (240-285) -/

/-- The four handles the `finally` block tries to close, in order. -/
inductive Handle where
  | hStdin
  | hStdout
  | hStderr
  | hSession
  deriving DecidableEq, Repr

/-- Environment of one remote invocation: whether `ssh.connect` succeeds,
and the stdout lines when it does. -/
structure ExecEnv where
  connectOk : Bool
  outLines : List String

/-- Resource lifecycle of `execute_remote_command`: the `finally` block runs
`stdin.close(); stdout.close(); stderr.close(); ssh.close()`.  The three
channel locals are bound only by `ssh.exec_command`, which runs only after
`ssh.connect` succeeds; when `connect` raises, `stdin.close()` hits an
unbound local, raising NameError that aborts the rest of the `finally`
(closing nothing) and replaces the in-flight connection error.  Returns the
list of handles actually closed and the final outcome. -/
def execute_remote_command_model (env : ExecEnv) (mode : ℕ) :
    List Handle × Except PyErr RemoteResult :=
  if env.connectOk then
    ([.hStdin, .hStdout, .hStderr, .hSession], decode_dispatch mode env.outLines)
  else ([], .error .nameError)

/-! ### Job-status query: `HPCScheduling.job_wait` (HPC_run_scheduling.py 393-437) -/

/-- Remote side effects of `job_wait`. -/
inductive Effect where
  | qdel (id : ℕ)
  | qsub
  deriving DecidableEq, Repr

/-- One `qstat -a <id>` invocation: its exit code and its whitespace-split
stdout tokens. -/
structure QstatResult where
  returncode : ℤ
  tokens : List String
  deriving Repr

/-- `str(output,'utf-8').split()[-3:]`: the last (up to) three tokens. -/
def jobstatusOf (q : QstatResult) : List String :=
  q.tokens.drop (q.tokens.length - 3)

/-- Split a character list at every occurrence of `sep`
(the semantics of Python `str.split(sep)` / `String.splitOn`). -/
def splitOnChar (sep : Char) : List Char → List (List Char)
  | [] => [[]]
  | c :: cs =>
    if c = sep then [] :: splitOnChar sep cs
    else
      match splitOnChar sep cs with
      | [] => [[c]]
      | h :: t => (c :: h) :: t

/-- `datetime.strptime(tok, '%H:%M')`, reduced to seconds: one or two digits
each for hour (< 24) and minute (< 60), else ValueError (`none`). -/
def parseHM (s : String) : Option ℕ :=
  match splitOnChar ':' s.toList with
  | [hs, ms] =>
    if hs ≠ [] ∧ hs.length ≤ 2 ∧ hs.all Char.isDigit ∧
       ms ≠ [] ∧ ms.length ≤ 2 ∧ ms.all Char.isDigit ∧
       digitsVal hs < 24 ∧ digitsVal ms < 60
    then some (digitsVal hs * 3600 + digitsVal ms * 60)
    else none
  | _ => none

/-- `HPCScheduling.job_wait(job_id)`.  `subNewId` is the id that
`submit_job` would assign on the H branch (the id parsed from the fresh
`qsub` output).  Nonzero qstat exit raises CalledProcessError, caught and
re-raised as JobStatError.  `status = jobstatus[1]` raises IndexError on
fewer than two tokens (making the dead `if not jobstatus` ValueError guard
unreachable).  Q: wait 3600; H: qdel the old id, submit a new job, wait
1800; R: wait = wall - elapsed + 60 from the HH:MM tokens (strptime failure
is re-raised as ValueError, a missing third token is IndexError); any other
status sets `t_wait = 0` but then `return ... newjobid` references the
never-assigned local `newjobid`, raising UnboundLocalError. -/
def job_wait (q : QstatResult) (subNewId : ℕ) (job_id : ℕ) :
    List Effect × Except PyErr (ℤ × String × ℕ) :=
  if q.returncode ≠ 0 then ([], .error .jobStatError)
  else
    match (jobstatusOf q).get? 1 with
    | none => ([], .error .indexError)
    | some status =>
      if status = "Q" then ([], .ok (3600, status, job_id))
      else if status = "H" then ([.qdel job_id, .qsub], .ok (1800, status, subNewId))
      else if status = "R" then
        match (jobstatusOf q).get? 0 with
        | none => ([], .error .indexError)
        | some wallTok =>
          match parseHM wallTok with
          | none => ([], .error .valueError)
          | some wall =>
            match (jobstatusOf q).get? 2 with
            | none => ([], .error .indexError)
            | some elapTok =>
              match parseHM elapTok with
              | none => ([], .error .valueError)
              | some elap => ([], .ok ((wall : ℤ) - (elap : ℤ) + 60, status, job_id))
      else ([], .error .unboundLocal)

/-- The stdout lines of `HPCScheduling.monitor` (148-208) as a function of
the `job_wait` outcome, for `check = False` (convergence checks disabled;
with checks on, extra lines follow the markers).  On success Python prints
the numeric wait (the model prints the integer seconds value); on
JobStatError/ValueError it prints the exception sentinel and the tag; any
other exception escapes `monitor` uncaught, so no marker lines appear. -/
def monitor_lines (q : QstatResult) (subNewId job_id : ℕ) : List String :=
  match (job_wait q subNewId job_id).2 with
  | .ok (t, s, nid) =>
    ["====JOB_IDS====", toString nid, "====JOB_STATUS====", s,
     "====WAIT_TIME====", toString t]
  | .error .jobStatError => ["====EXCEPTION====", "JobStatError"]
  | .error .valueError => ["====EXCEPTION====", "ValueError"]
  | .error _ => []

/-! ### Convergence monitor: `HPCScheduling.check_convergence` (441-513) -/

/-- One row of the `run_<ID>.csv` time-series log: the columns the check
reads ('dt CFL', 'dt', 'Max(div(V))', 'Kinetic Energy'), as rationals. -/
structure CsvRow where
  dtCFL : ℚ
  dt : ℚ
  maxDiv : ℚ
  ke : ℚ
  deriving DecidableEq, Repr

/-- `len_to_check = 2000`: minimum rows before checks start. -/
def len_to_check : ℕ := 2000

/-- `window_size = 50`. -/
def window_size : ℕ := 50

/-- `stable_threshold = 0.1`. -/
def stable_threshold : ℚ := 1 / 10

/-- `recent_data = csv_to_check.iloc[-int(len_to_check*0.5):]`:
the most recent 1000 rows. -/
def recentRows (csv : List CsvRow) : List CsvRow :=
  csv.drop (csv.length - len_to_check / 2)

/-- `series.rolling(window=50).mean()[::50].dropna()`: pandas indexes the
rolling mean by window end; entries before index 49 are NaN, and the stride
keeps indices 0, 50, 100, …, so the surviving values are the means of the
50-element windows ending at indices 50, 100, …. -/
def movingAvgStrided (xs : List ℚ) : List ℚ :=
  (List.range xs.length).filterMap (fun i =>
    if i % window_size = 0 ∧ window_size ≤ i then
      some (((xs.drop (i - (window_size - 1))).take window_size).sum / (window_size : ℚ))
    else none)

/-- `np.diff(ys) / ys[:-1]`: step-to-step relative change. -/
def relChanges (ys : List ℚ) : List ℚ :=
  List.zipWith (fun p n => (n - p) / p) ys ys.tail

/-- The streak count left after the scan loop: consecutive rates with
`abs(rate) < stable_threshold`, reset to 0 on any break. -/
def finalStreak (rs : List ℚ) : ℕ :=
  rs.foldl (fun c r => if |r| < stable_threshold then c + 1 else 0) 0

/-- `div_check` / `ke_check`: the block-moving-averaged signal fails its
stability bar iff the final streak is below `int(len * 0.9)` of the
relative-change sequence. -/
def failsStability (xs : List ℚ) : Bool :=
  let rel := relChanges (movingAvgStrided xs)
  decide (finalStreak rel < 9 * rel.length / 10)

/-- `ts_check = CFL_check or dt_check` on the whole series:
`dt CFL` dips below `csv['dt CFL'][5] * 1e-3`, or `dt CFL - dt` goes
negative anywhere. -/
def tsCheck (csv : List CsvRow) : Bool :=
  let lower_limit := (((csv.get? 5).map (·.dtCFL)).getD 0) * (1 / 1000)
  csv.any (fun r => decide (r.dtCFL < lower_limit)) ||
    csv.any (fun r => decide (r.dtCFL - r.dt < 0))

/-- The divergence-signal stability failure flag on the recent half. -/
def divFails (csv : List CsvRow) : Bool :=
  failsStability ((recentRows csv).map (·.maxDiv))

/-- The kinetic-energy stability failure flag on the recent half. -/
def keFails (csv : List CsvRow) : Bool :=
  failsStability ((recentRows csv).map (·.ke))

/-- `HPCScheduling.check_convergence()`: 'FNF' when the csv file is absent,
'NR' below 2000 rows, else 'D' iff all three checks fail, otherwise 'C'. -/
def check_convergence (csv? : Option (List CsvRow)) : String :=
  match csv? with
  | none => "FNF"
  | some csv =>
    if csv.length < len_to_check then "NR"
    else if tsCheck csv && divFails csv && keFails csv then "D"
    else "C"

/-! ### Checkpoint/restart resolver: `HPCScheduling.job_restart` (565-666) -/

/-- Word character for the regex `\b` boundary: letters, digits, `_`. -/
def isWordChar (c : Char) : Bool := c.isAlphanum || c = '_'

/-- `re.search(r"\b\d+\b", line)` as a skip-machine: the leftmost maximal
digit run whose neighbours are not word characters.  `prevWord` records
whether the character before the current position is a word character;
`skip > 0` consumes the remaining characters of a digit run whose right
boundary failed (they are digits, hence word characters, so scanning
resumes with `prevWord = true`). -/
def findNumAux : Bool → ℕ → List Char → Option ℕ
  | _, skip + 1, _ :: cs => findNumAux true skip cs
  | _, _, [] => none
  | prevWord, 0, c :: cs =>
    if c.isDigit && !prevWord then
      match List.dropWhile Char.isDigit cs with
      | [] => some (digitsVal (c :: List.takeWhile Char.isDigit cs))
      | r :: _ =>
        if isWordChar r then
          findNumAux true (List.takeWhile Char.isDigit cs).length cs
        else some (digitsVal (c :: List.takeWhile Char.isDigit cs))
    else findNumAux (isWordChar c) 0 cs

/-- `re.search(r"\b\d+\b", line)`: leftmost digit run with `\b` on both
sides. -/
def findNum (prevWord : Bool) (l : List Char) : Option ℕ :=
  findNumAux prevWord 0 l

/-- Substring test (Python `pattern in line`). -/
def containsSub (pat : List Char) : List Char → Bool
  | [] => pat.isEmpty
  | c :: cs => pat.isPrefixOf (c :: cs) || containsSub pat cs

/-- `'writing restart file'`: the checkpoint-write marker. -/
def restartPattern : List Char := "writing restart file".toList

/-- Lines 594-613 of `job_restart`: scan the console log backwards for the
last line containing the marker, strip it, and extract the first
`\b\d+\b` integer. -/
def extractRestartNum (outLines : List (List Char)) : Option ℕ :=
  match outLines.reverse.find? (fun l => containsSub restartPattern l) with
  | none => none
  | some l => findNum false (stripWs l)

/-- `re.sub(pat, rep, s)` for a plain-text pattern, as a skip-machine:
`skip > 0` means that many characters of matched text remain to consume. -/
def replAux (pat rep : List Char) : ℕ → List Char → List Char
  | skip + 1, _ :: cs => replAux pat rep skip cs
  | _, [] => []
  | 0, c :: cs =>
    if pat ≠ [] ∧ pat.isPrefixOf (c :: cs) then
      rep ++ replAux pat rep (pat.length - 1) cs
    else c :: replAux pat rep 0 cs

/-- `re.sub('FALSE', 'TRUE', line)` and friends: replace every
(leftmost, non-overlapping) occurrence. -/
def replaceAll (pat rep : List Char) (l : List Char) : List Char :=
  replAux pat rep 0 l

/-- `'input_file_index='`, the fixed text of the restart-index pattern
`input_file_index=\d+`. -/
def idxKey : List Char := "input_file_index=".toList

/-- Does `<key>\d+` (the regex `input_file_index=\d+` with `key` its fixed
text) match at the head of `s`?  Needs the key followed by at least one
digit. -/
def idxMatch (key : List Char) (s : List Char) : Bool :=
  key.isPrefixOf s &&
    (match List.drop key.length s with
     | [] => false
     | d :: _ => d.isDigit)

/-- `re.sub(r'<key>\d+', rep, s)` as a skip-machine: on a match the key and
the (greedy) digit run are consumed. -/
def subIdxAux (key rep : List Char) : ℕ → List Char → List Char
  | skip + 1, _ :: cs => subIdxAux key rep skip cs
  | _, [] => []
  | 0, c :: cs =>
    if idxMatch key (c :: cs) then
      rep ++ subIdxAux key rep
        ((key.length - 1) +
          (List.takeWhile Char.isDigit (List.drop (key.length - 1) cs)).length) cs
    else c :: subIdxAux key rep 0 cs

/-- Replace every `<key>\d+` occurrence by `rep`. -/
def subIdx (key rep : List Char) (l : List Char) : List Char :=
  subIdxAux key rep 0 l

/-- Lines 618-624 of `job_restart` applied to `lines[384]`: enable the
restart flag (`re.sub('FALSE', 'TRUE', ...)`), then pin the restart index
(`re.sub(r'input_file_index=\d+', 'input_file_index=<k>', ...)`). -/
def modifyRestartLine (l : List Char) (k : ℕ) : List Char :=
  subIdx idxKey (idxKey ++ (Nat.repr k).toList)
    (replaceAll "FALSE".toList "TRUE".toList l)

/-- Outcome of `job_restart`. -/
inductive RestartResult where
  | fileNotFound
  | noRestartPattern
  | scriptIndexError
  | resubmit (newScript : List (List Char))
  | completed
  deriving DecidableEq, Repr

/-- `HPCScheduling.job_restart(pset_dict)` (565-666).  `outFile` is the
console log `run_<ID>.out` (absent file: FileNotFoundError tag);
`stopCrit` is the value of `self.stop_crit()` (`none` models Python `None`,
which for a geom case is the missing-csv FileNotFoundError tag and is
otherwise falsy); `script` is `job_run_<ID>.sh` split into lines.  When the
criterion says continue (`some true`), the checkpoint index is extracted
from the log (ValueError tag when no marker line or integer exists),
`lines[384]` is rewritten by `modifyRestartLine`, and the job is
resubmitted; otherwise the run is reported complete. -/
def job_restart (outFile : Option (List (List Char))) (caseGeom : Bool)
    (stopCrit : Option Bool) (script : List (List Char)) : RestartResult :=
  match outFile with
  | none => .fileNotFound
  | some outLines =>
    if caseGeom ∧ stopCrit = none then .fileNotFound
    else if stopCrit = some true then
      match extractRestartNum outLines with
      | none => .noRestartPattern
      | some k =>
        match script.get? 384 with
        | none => .scriptIndexError
        | some line => .resubmit (script.set 384 (modifyRestartLine line k))
    else .completed

/-- Head-character guard used in theorem statements: the list is empty or
does not start with a digit. -/
def headNotDigit (l : List Char) : Bool :=
  match l with
  | [] => true
  | c :: _ => !c.isDigit

instance {ε α : Type} [DecidableEq ε] [DecidableEq α] : DecidableEq (Except ε α) :=
  fun a b =>
    match a, b with
    | .ok x, .ok y => if h : x = y then .isTrue (by rw [h]) else .isFalse (by simp [h])
    | .error x, .error y => if h : x = y then .isTrue (by rw [h]) else .isFalse (by simp [h])
    | .ok _, .error _ => .isFalse (by simp)
    | .error _, .ok _ => .isFalse (by simp)

/-! ## Theorems -/

/-- Claim C1 (code-bug evidence).  `job_restart` announces its restart
boolean under the sentinel `====RETURN_BOOL====`, but the controller's
`search` in mode 2 recognizes only `====RESTART====`.  Consequently, on the
success output of `job_restart` the decoded field map carries no `ret_bool`
entry, `====RETURN_BOOL====` is not a recognized sentinel of mode 2, and
the controller's restart step ends in the uncaught TypeError of
`eval(None)` instead of a decoded boolean driving the loop. -/
theorem job_restart_retbool_never_decoded :
    (∃ d, search 2 (jobRestartOutputLines "54321" "Q" "3600") = .ok d
        ∧ dictGet d "ret_bool" = none)
    ∧ "====RETURN_BOOL====" ∉ markerKeys 2
    ∧ restartStep (jobRestartOutputLines "54321" "Q" "3600") = .error .typeError := by
  refine ⟨⟨[("jobid", "54321"), ("status", "Q"), ("t_wait", "3600")], ?_, ?_⟩, ?_, ?_⟩
  · rfl
  · rfl
  · decide
  · rfl

/-- Claim C2 (code-bug evidence).  When `qstat` produces no output (nonzero
exit status for a finished/removed job), the remote `job_wait` raises
JobStatError and `monitor` prints the `JobStatError` exception tag; but the
controller's tag dispatch maps only the literal "RuntimeError" to the
finished transition, so "JobStatError" becomes NameError, which the
monitoring loop merely logs: the state keeps its stale positive wait-time
and `running = true` instead of reaching wait 0 / status F / loop end. -/
theorem monitor_empty_qstat_not_finished :
    job_wait ⟨1, []⟩ 0 9 = ([], .error .jobStatError)
    ∧ monitor_lines ⟨1, []⟩ 0 9 = ["====EXCEPTION====", "JobStatError"]
    ∧ excToError "JobStatError" = .nameError
    ∧ jobmonitorStep (monitor_lines ⟨1, []⟩ 0 9) ⟨3600, some "Q", true⟩
        = ([.sleep 1830, .monitorCmd], .ok ⟨3600, some "Q", true⟩)
    ∧ (⟨3600, some "Q", true⟩ : MonState) ≠ ⟨0, some "F", false⟩ := by
  refine ⟨rfl, rfl, ?_, rfl, ?_⟩ <;> decide

/-- Claim C3 counterexample.  At the decoded wait-time w = 60 > 0 the
controller computes `sleep(60 - 1770)`; `time.sleep` rejects the negative
duration with ValueError before any command is issued, so no sleep happens
and the re-poll never occurs. -/
theorem monitor_small_wait_crashes :
    (0 : ℤ) < 60
    ∧ jobmonitorStep [] ⟨60, some "R", true⟩ = ([], .error .valueError) := by
  exact ⟨by decide, rfl⟩

/-- Claim C3 amended.  For every wait-time w ≥ 1770 the iteration sleeps
exactly w - 1770 seconds — strictly less than w — and then always issues
the monitoring command. -/
theorem monitor_sleep_margin (lines : List String) (st : MonState)
    (h : 1770 ≤ st.t_wait) :
    (jobmonitorStep lines st).1 = [.sleep (st.t_wait - 1770), .monitorCmd]
    ∧ st.t_wait - 1770 < st.t_wait := by
  refine ⟨?_, by omega⟩
  unfold jobmonitorStep
  rw [if_pos (by omega), if_neg (by omega)]

/-- Witness for `monitor_sleep_margin` at w = 1800 (a held job's wait). -/
theorem monitor_sleep_margin_witness :
    (1770 : ℤ) ≤ (⟨1800, some "Q", true⟩ : MonState).t_wait
    ∧ ((jobmonitorStep [] ⟨1800, some "Q", true⟩).1
        = [.sleep ((⟨1800, some "Q", true⟩ : MonState).t_wait - 1770), .monitorCmd]
      ∧ (⟨1800, some "Q", true⟩ : MonState).t_wait - 1770
          < (⟨1800, some "Q", true⟩ : MonState).t_wait) :=
  ⟨by decide, monitor_sleep_margin [] ⟨1800, some "Q", true⟩ (by decide)⟩

/-- Claim C9 (code-bug evidence).  When `ssh.connect` fails, the channel
locals were never bound, so the `finally` block raises at `stdin.close()`:
nothing — in particular not the session — is closed, and the connection
error is replaced by NameError.  On every path where the connection
succeeded, all four handles are closed in order. -/
theorem execute_remote_connect_failure_no_cleanup :
    execute_remote_command_model ⟨false, []⟩ 1 = ([], .error .nameError)
    ∧ Handle.hSession ∉ (execute_remote_command_model ⟨false, []⟩ 1).1
    ∧ ∀ (lines : List String) (mode : ℕ),
        (execute_remote_command_model ⟨true, lines⟩ mode).1
          = [.hStdin, .hStdout, .hStderr, .hSession] := by
  exact ⟨rfl, by decide, fun lines mode => rfl⟩

/-- Claim C4.  For every scheduler status token other than Q, H, R, the
job-status query reaches the `else: t_wait = 0` branch and then its
`return` references the never-assigned local `newjobid`: the call raises
(UnboundLocalError) and never returns a payload the monitoring loop could
treat as a healthy job. -/
theorem job_wait_unknown_status_hard_error
    (q : QstatResult) (subNewId job_id : ℕ) (status : String)
    (hrc : q.returncode = 0)
    (hst : (jobstatusOf q).get? 1 = some status)
    (hq : status ≠ "Q") (hh : status ≠ "H") (hr : status ≠ "R") :
    (job_wait q subNewId job_id).2 = .error .unboundLocal
    ∧ ∀ r, (job_wait q subNewId job_id).2 ≠ .ok r := by
  have hres : (job_wait q subNewId job_id).2 = .error .unboundLocal := by
    unfold job_wait
    rw [if_neg (by simp [hrc]), hst]
    simp [hq, hh, hr]
  exact ⟨hres, fun r hok => by rw [hres] at hok; exact Except.noConfusion hok⟩

/-- Witness for `job_wait_unknown_status_hard_error` at status token "E". -/
theorem job_wait_unknown_status_hard_error_witness :
    ((⟨0, ["10:00", "E", "00:05"]⟩ : QstatResult).returncode = 0
      ∧ (jobstatusOf ⟨0, ["10:00", "E", "00:05"]⟩).get? 1 = some "E"
      ∧ "E" ≠ "Q" ∧ "E" ≠ "H" ∧ "E" ≠ "R")
    ∧ ((job_wait ⟨0, ["10:00", "E", "00:05"]⟩ 1 42).2 = .error .unboundLocal
      ∧ ∀ r, (job_wait ⟨0, ["10:00", "E", "00:05"]⟩ 1 42).2 ≠ .ok r) :=
  ⟨⟨rfl, by decide, by decide, by decide, by decide⟩,
    job_wait_unknown_status_hard_error _ 1 42 "E" rfl (by decide)
      (by decide) (by decide) (by decide)⟩

/-- Claim C7.  On a held (H) scheduler listing, `job_wait` deletes the old
job id, submits a fresh job, and returns wait-time exactly 1800 together
with the newly assigned id. -/
theorem job_wait_held_resubmits
    (q : QstatResult) (subNewId job_id : ℕ)
    (hrc : q.returncode = 0)
    (hst : (jobstatusOf q).get? 1 = some "H") :
    job_wait q subNewId job_id = ([.qdel job_id, .qsub], .ok (1800, "H", subNewId)) := by
  unfold job_wait
  rw [if_neg (by simp [hrc]), hst]
  rfl

/-- Witness for `job_wait_held_resubmits` on a held qstat listing. -/
theorem job_wait_held_resubmits_witness :
    ((⟨0, ["10:00", "H", "00:00"]⟩ : QstatResult).returncode = 0
      ∧ (jobstatusOf ⟨0, ["10:00", "H", "00:00"]⟩).get? 1 = some "H")
    ∧ job_wait ⟨0, ["10:00", "H", "00:00"]⟩ 77 42
        = ([.qdel 42, .qsub], .ok (1800, "H", 77)) :=
  ⟨⟨rfl, by decide⟩, job_wait_held_resubmits _ 77 42 rfl (by decide)⟩

/-- Claim C8 counterexample.  A running job whose elapsed wall-clock time
(05:00) exceeds its requested wall-clock time (00:10) yields the decoded
wait-time 600 - 18000 + 60 = -17340 < 0, violating the claimed
non-negativity. -/
theorem job_wait_negative_wait :
    (job_wait ⟨0, ["00:10", "R", "05:00"]⟩ 1 42).2 = .ok (-17340, "R", 42)
    ∧ (-17340 : ℤ) < 0 := by
  exact ⟨by decide, by decide⟩

/-- Claim C8 amended.  Every successfully returned wait-time of `job_wait`
is non-negative — statuses Q and H give the constants 3600 and 1800 —
except in exactly one case: a running job whose parsed elapsed time exceeds
its requested wall time by more than the 60-second grace, where the
wait-time is wall - elapsed + 60 < 0. -/
theorem job_wait_wait_nonneg_unless_overrun
    (q : QstatResult) (subNewId job_id : ℕ) (t : ℤ) (s : String) (nid : ℕ)
    (h : (job_wait q subNewId job_id).2 = .ok (t, s, nid)) :
    0 ≤ t ∨ (s = "R" ∧ t < 0 ∧ ∃ w e : ℕ,
      parseHM ((jobstatusOf q).getD 0 "") = some w
      ∧ parseHM ((jobstatusOf q).getD 2 "") = some e
      ∧ (w : ℤ) + 60 < (e : ℤ) ∧ t = (w : ℤ) - (e : ℤ) + 60) := by
  unfold job_wait at h
  split at h
  · simp at h
  · split at h
    · simp at h
    · rename_i status hst
      split at h
      · -- status Q: wait 3600
        simp only [Except.ok.injEq, Prod.mk.injEq] at h
        left; omega
      · split at h
        · -- status H: wait 1800
          simp only [Except.ok.injEq, Prod.mk.injEq] at h
          left; omega
        · split at h
          · -- status R
            rename_i hR
            split at h
            · simp at h
            · rename_i wallTok h0
              split at h
              · simp at h
              · rename_i wall hpw
                split at h
                · simp at h
                · rename_i elapTok h2
                  split at h
                  · simp at h
                  · rename_i elap hpe
                    simp only [Except.ok.injEq, Prod.mk.injEq] at h
                    obtain ⟨ht, hs, -⟩ := h
                    by_cases hw : 0 ≤ t
                    · left; exact hw
                    · right
                      refine ⟨hs ▸ hR ▸ rfl, by omega, wall, elap, ?_, ?_, by omega, by omega⟩
                      · rw [List.getD_eq_get?, h0]; exact hpw
                      · rw [List.getD_eq_get?, h2]; exact hpe
          · -- unrecognized status: UnboundLocalError
            simp at h

/-- Witness for `job_wait_wait_nonneg_unless_overrun` on a queued job. -/
theorem job_wait_wait_nonneg_unless_overrun_witness :
    (job_wait ⟨0, ["10:00", "Q", "00:05"]⟩ 1 7).2 = .ok (3600, "Q", 7)
    ∧ (0 ≤ (3600 : ℤ) ∨ ("Q" = "R" ∧ (3600 : ℤ) < 0 ∧ ∃ w e : ℕ,
        parseHM ((jobstatusOf ⟨0, ["10:00", "Q", "00:05"]⟩).getD 0 "") = some w
        ∧ parseHM ((jobstatusOf ⟨0, ["10:00", "Q", "00:05"]⟩).getD 2 "") = some e
        ∧ (w : ℤ) + 60 < (e : ℤ) ∧ (3600 : ℤ) = (w : ℤ) - (e : ℤ) + 60)) :=
  ⟨rfl, job_wait_wait_nonneg_unless_overrun _ 1 7 3600 "Q" 7 rfl⟩

/-- Claim C5.  On a time-series log with at least 2000 rows, the
convergence check returns "D" (Diverging) exactly when the timestep-ratio
instability flag holds, the block-moving-averaged divergence signal fails
its 90% final-streak stability bar, and the block-moving-averaged energy
signal fails its bar; in every other case it returns "C" (Converging) —
never "NR" or "FNF". -/
theorem check_convergence_diverging_iff (csv : List CsvRow)
    (h : len_to_check ≤ csv.length) :
    (check_convergence (some csv) = "D"
      ↔ (tsCheck csv = true ∧ divFails csv = true ∧ keFails csv = true))
    ∧ (check_convergence (some csv) = "D" ∨ check_convergence (some csv) = "C") := by
  have hnl : ¬ csv.length < len_to_check := by omega
  have hcc : check_convergence (some csv)
      = if tsCheck csv && divFails csv && keFails csv then "D" else "C" := by
    simp [check_convergence, hnl]
  cases hb : (tsCheck csv && divFails csv && keFails csv) with
  | true =>
    rw [hb, if_pos rfl] at hcc
    simp only [Bool.and_eq_true] at hb
    exact ⟨⟨fun _ => ⟨hb.1.1, hb.1.2, hb.2⟩, fun _ => hcc⟩, Or.inl hcc⟩
  | false =>
    rw [hb, if_neg (by simp)] at hcc
    refine ⟨⟨fun hd => absurd (hcc ▸ hd) (by decide), ?_⟩, Or.inr hcc⟩
    rintro ⟨h1, h2, h3⟩
    rw [h1, h2, h3] at hb
    simp at hb

/-- Witness for `check_convergence_diverging_iff` on a 2000-row constant
log (all checks pass, verdict "C"). -/
theorem check_convergence_diverging_iff_witness :
    len_to_check ≤ (List.replicate 2000 (⟨1, 1, 1, 1⟩ : CsvRow)).length
    ∧ ((check_convergence (some (List.replicate 2000 (⟨1, 1, 1, 1⟩ : CsvRow))) = "D"
        ↔ (tsCheck (List.replicate 2000 (⟨1, 1, 1, 1⟩ : CsvRow)) = true
          ∧ divFails (List.replicate 2000 (⟨1, 1, 1, 1⟩ : CsvRow)) = true
          ∧ keFails (List.replicate 2000 (⟨1, 1, 1, 1⟩ : CsvRow)) = true))
      ∧ (check_convergence (some (List.replicate 2000 (⟨1, 1, 1, 1⟩ : CsvRow))) = "D"
        ∨ check_convergence (some (List.replicate 2000 (⟨1, 1, 1, 1⟩ : CsvRow))) = "C")) :=
  ⟨by rw [List.length_replicate]; decide,
    check_convergence_diverging_iff (List.replicate 2000 ⟨1, 1, 1, 1⟩)
      (by rw [List.length_replicate]; decide)⟩

/-- The scan of `search` succeeds exactly when the final line (if any) is
not a recognized marker, for every accumulator. -/
theorem searchGo_ok_iff (mk : List (String × String)) (lines : List String) :
    ∀ acc, (∃ d, searchGo mk lines acc = .ok d)
      ↔ ∀ l, lines.getLast? = some l → mk.find? (fun p => decide (p.1 = l)) = none := by
  induction lines with
  | nil => intro acc; simp [searchGo]
  | cons x xs ih =>
    intro acc
    cases xs with
    | nil =>
      cases hf : mk.find? (fun p => decide (p.1 = x)) with
      | none =>
        constructor
        · intro _ l hl
          obtain rfl : x = l := by simpa using hl
          exact hf
        · intro _
          exact ⟨acc, by simp [searchGo, hf]⟩
      | some p =>
        constructor
        · rintro ⟨d, hd⟩
          simp [searchGo, hf] at hd
        · intro hcon
          have h2 := hcon x rfl
          rw [hf] at h2
          simp at h2
    | cons y ys =>
      have hLast : (x :: y :: ys).getLast? = (y :: ys).getLast? :=
        List.getLast?_cons_cons
      cases hf : mk.find? (fun p => decide (p.1 = x)) with
      | none =>
        simp only [searchGo, hf]
        rw [hLast]
        exact ih acc
      | some p =>
        simp only [searchGo, hf]
        rw [hLast]
        exact ih (dictSet acc p.2 y)

/-- The only error the scan of `search` ever produces is the index error of
`out_lines[idx + 1]`. -/
theorem searchGo_error_eq (mk : List (String × String)) (lines : List String) :
    ∀ acc e, searchGo mk lines acc = .error e → e = .indexError := by
  induction lines with
  | nil => intro acc e h; simp [searchGo] at h
  | cons x xs ih =>
    intro acc e h
    cases xs with
    | nil =>
      cases hf : mk.find? (fun p => decide (p.1 = x)) with
      | none => simp [searchGo, hf] at h
      | some p =>
        simp [searchGo, hf] at h
        exact h.symm
    | cons y ys =>
      cases hf : mk.find? (fun p => decide (p.1 = x)) with
      | none => simp only [searchGo, hf] at h; exact ih _ _ h
      | some p => simp only [searchGo, hf] at h; exact ih _ _ h

/-- Claim C10.  For every search mode 0, 1 or 2, `search` returns a field
map exactly when every recognized sentinel line is followed by at least one
further line (equivalently, the last line is not a recognized sentinel);
when it fails, the failure is precisely the index-out-of-range error of
reading the value line. -/
theorem search_marker_at_end (mode : ℕ) (hmode : mode = 0 ∨ mode = 1 ∨ mode = 2)
    (lines : List String) :
    ((∃ d, search mode lines = .ok d)
      ↔ ∀ (i : ℕ) (hi : i < lines.length),
          lines.get ⟨i, hi⟩ ∈ markerKeys mode → i + 1 < lines.length)
    ∧ (∀ e, search mode lines = .error e → e = .indexError) := by
  have hs : search mode lines = searchGo (markers mode) lines [] := by
    unfold search
    rw [if_pos hmode]
  constructor
  · rw [hs, searchGo_ok_iff]
    constructor
    · intro hnone i hi hmem
      by_contra hlt
      have hieq : i = lines.length - 1 := by omega
      have hlast : lines.getLast? = some (lines.get ⟨i, hi⟩) := by
        rw [List.getLast?_eq_get?, ← hieq]
        exact List.get?_eq_get hi
      have hfind := hnone _ hlast
      rw [List.find?_eq_none] at hfind
      obtain ⟨p, hp, hp1⟩ := List.mem_map.mp hmem
      exact hfind p hp (by simp [hp1])
    · intro hidx l hlast
      rw [List.getLast?_eq_get?] at hlast
      obtain ⟨hlen, hget⟩ := List.get?_eq_some.mp hlast
      rw [List.find?_eq_none]
      intro p hp hpl
      have hmem : lines.get ⟨lines.length - 1, hlen⟩ ∈ markerKeys mode := by
        rw [hget]
        exact List.mem_map.mpr ⟨p, hp, by simpa using hpl⟩
      have := hidx _ hlen hmem
      omega
  · intro e he
    rw [hs] at he
    exact searchGo_error_eq _ _ _ _ he

/-- Witness for `search_marker_at_end`: mode 1, with the wait-time sentinel
as the final line. -/
theorem search_marker_at_end_witness :
    ((1 : ℕ) = 0 ∨ (1 : ℕ) = 1 ∨ (1 : ℕ) = 2)
    ∧ (((∃ d, search 1 ["log", "====WAIT_TIME===="] = .ok d)
        ↔ ∀ (i : ℕ) (hi : i < (["log", "====WAIT_TIME===="] : List String).length),
            (["log", "====WAIT_TIME===="] : List String).get ⟨i, hi⟩ ∈ markerKeys 1
              → i + 1 < (["log", "====WAIT_TIME===="] : List String).length)
      ∧ (∀ e, search 1 ["log", "====WAIT_TIME===="] = .error e → e = .indexError)) :=
  ⟨by decide, search_marker_at_end 1 (by decide) ["log", "====WAIT_TIME===="]⟩

/-- After consuming `x.length` matched characters, the replace machine is
back in scanning state. -/
theorem replAux_consume (pat rep : List Char) (x : List Char) :
    ∀ cs, replAux pat rep x.length (x ++ cs) = replAux pat rep 0 cs := by
  induction x with
  | nil => intro cs; rfl
  | cons c x' ih =>
    intro cs
    simp only [List.cons_append, List.length_cons, replAux]
    exact ih cs

/-- `re.sub(pat, rep, ...)` on text with no occurrence of `pat` is the
identity. -/
theorem replaceAll_id (pat rep : List Char) (hp : pat ≠ []) :
    ∀ b, (∀ i, i < b.length → pat.isPrefixOf (List.drop i b) = false) →
      replaceAll pat rep b = b := by
  intro b
  induction b with
  | nil => intro _; rfl
  | cons c cs ih =>
    intro hfree
    have h0 : pat.isPrefixOf (c :: cs) = false := by
      simpa using hfree 0 (by simp)
    show replAux pat rep 0 (c :: cs) = c :: cs
    simp only [replAux, h0, Bool.false_eq_true, and_false, ne_eq, hp,
      not_false_iff, true_and, if_false]
    exact congrArg (c :: ·) (ih fun i hi => by
      simpa using hfree (i + 1) (by simp; omega))

/-- `re.sub(pat, rep, a ++ pat ++ b)` with no occurrence of `pat` starting
inside `a` rewrites the explicit occurrence and continues in `b`. -/
theorem replaceAll_split (pat rep : List Char) (hp : pat ≠ []) :
    ∀ (a b : List Char),
      (∀ i, i < a.length → pat.isPrefixOf (List.drop i (a ++ pat ++ b)) = false) →
      replaceAll pat rep (a ++ pat ++ b) = a ++ rep ++ replaceAll pat rep b := by
  intro a
  induction a with
  | nil =>
    intro b _
    obtain ⟨p, ps, rfl⟩ : ∃ p ps, pat = p :: ps := by
      cases pat with
      | nil => exact absurd rfl hp
      | cons p ps => exact ⟨p, ps, rfl⟩
    simp only [List.nil_append]
    have hpre : (p :: ps).isPrefixOf (p :: (ps ++ b)) = true := by
      rw [List.isPrefixOf_iff_prefix]
      exact List.prefix_append (p :: ps) b
    show replAux (p :: ps) rep 0 ((p :: ps) ++ b) = rep ++ replaceAll (p :: ps) rep b
    rw [List.cons_append]
    simp only [replAux, hpre, ne_eq, reduceCtorEq, not_false_iff, true_and, if_true,
      List.length_cons, Nat.succ_sub_one]
    exact congrArg (rep ++ ·) (replAux_consume (p :: ps) rep ps b)
  | cons c a' ih =>
    intro b hfree
    have h0 : pat.isPrefixOf (c :: (a' ++ pat ++ b)) = false := by
      simpa using hfree 0 (by simp)
    show replAux pat rep 0 ((c :: a') ++ pat ++ b) = (c :: a') ++ rep ++ replaceAll pat rep b
    rw [List.cons_append, List.cons_append]
    simp only [replAux, h0, Bool.false_eq_true, and_false, ne_eq, hp,
      not_false_iff, true_and, if_false]
    rw [List.cons_append, List.cons_append]
    exact congrArg (c :: ·) (ih b fun i hi => by
      simpa using hfree (i + 1) (by simp; omega))

/-- After consuming `x.length` matched characters, the index-substitution
machine is back in scanning state. -/
theorem subIdxAux_consume (key rep : List Char) (x : List Char) :
    ∀ cs, subIdxAux key rep x.length (x ++ cs) = subIdxAux key rep 0 cs := by
  induction x with
  | nil => intro cs; rfl
  | cons c x' ih =>
    intro cs
    simp only [List.cons_append, List.length_cons, subIdxAux]
    exact ih cs

/-- `takeWhile` runs through a block that satisfies the predicate. -/
theorem takeWhile_all_append (p : Char → Bool) :
    ∀ (ds b : List Char), (∀ c ∈ ds, p c = true) →
      List.takeWhile p (ds ++ b) = ds ++ List.takeWhile p b := by
  intro ds
  induction ds with
  | nil => intro b _; rfl
  | cons d ds' ih =>
    intro b hall
    have hd : p d = true := hall d (by simp)
    simp only [List.cons_append, List.takeWhile_cons, hd, if_true]
    exact congrArg (d :: ·) (ih b fun c hc => hall c (by simp [hc]))

/-- `takeWhile Char.isDigit` stops immediately on a non-digit head. -/
theorem takeWhile_digit_head_false (b : List Char) (hb : headNotDigit b = true) :
    List.takeWhile Char.isDigit b = [] := by
  cases b with
  | nil => rfl
  | cons c cs =>
    simp only [headNotDigit, Bool.not_eq_true'] at hb
    simp [List.takeWhile_cons, hb]

/-- The index substitution on text with no key-digit match is the
identity. -/
theorem subIdx_id (key rep : List Char) :
    ∀ b, (∀ i, i < b.length → idxMatch key (List.drop i b) = false) →
      subIdx key rep b = b := by
  intro b
  induction b with
  | nil => intro _; rfl
  | cons c cs ih =>
    intro hfree
    have h0 : idxMatch key (c :: cs) = false := by
      simpa using hfree 0 (by simp)
    show subIdxAux key rep 0 (c :: cs) = c :: cs
    simp only [subIdxAux, h0, Bool.false_eq_true, if_false]
    exact congrArg (c :: ·) (ih fun i hi => by
      simpa using hfree (i + 1) (by simp; omega))

/-- `re.sub(r'<key>\d+', rep, a ++ key ++ ds ++ b)` with `ds` a nonempty
digit run closed on the right and with no match starting inside `a`
rewrites the explicit occurrence and continues in `b`. -/
theorem subIdx_split (key rep : List Char) (hkey : key ≠ []) :
    ∀ (a ds b : List Char), ds ≠ [] → (∀ c ∈ ds, c.isDigit = true) →
      headNotDigit b = true →
      (∀ i, i < a.length → idxMatch key (List.drop i (a ++ key ++ ds ++ b)) = false) →
      subIdx key rep (a ++ key ++ ds ++ b) = a ++ rep ++ subIdx key rep b := by
  intro a
  induction a with
  | nil =>
    intro ds b hds hdig hb _
    obtain ⟨k0, kt, rfl⟩ : ∃ k0 kt, key = k0 :: kt := by
      cases key with
      | nil => exact absurd rfl hkey
      | cons k0 kt => exact ⟨k0, kt, rfl⟩
    obtain ⟨d0, dt, rfl⟩ : ∃ d0 dt, ds = d0 :: dt := by
      cases ds with
      | nil => exact absurd rfl hds
      | cons d0 dt => exact ⟨d0, dt, rfl⟩
    simp only [List.nil_append]
    have hmatch : idxMatch (k0 :: kt) ((k0 :: kt) ++ (d0 :: dt) ++ b) = true := by
      unfold idxMatch
      rw [List.append_assoc, List.drop_left]
      have hpre : (k0 :: kt).isPrefixOf ((k0 :: kt) ++ ((d0 :: dt) ++ b)) = true := by
        rw [List.isPrefixOf_iff_prefix]
        exact List.prefix_append _ _
      simp [hpre, hdig d0 (by simp)]
    show subIdxAux (k0 :: kt) rep 0 ((k0 :: kt) ++ (d0 :: dt) ++ b)
        = rep ++ subIdx (k0 :: kt) rep b
    rw [List.append_assoc, List.cons_append]
    have hmatch' : idxMatch (k0 :: kt) (k0 :: (kt ++ ((d0 :: dt) ++ b))) = true := by
      rw [← List.cons_append, ← List.append_assoc]
      exact hmatch
    simp only [subIdxAux, hmatch', if_true, List.length_cons, Nat.succ_sub_one]
    have hdropkt : List.drop kt.length (kt ++ ((d0 :: dt) ++ b)) = (d0 :: dt) ++ b :=
      List.drop_left kt _
    have htake : List.takeWhile Char.isDigit ((d0 :: dt) ++ b) = d0 :: dt := by
      rw [takeWhile_all_append Char.isDigit (d0 :: dt) b hdig,
        takeWhile_digit_head_false b hb, List.append_nil]
    rw [hdropkt, htake]
    have hlen : kt.length + (d0 :: dt).length = (kt ++ (d0 :: dt)).length := by
      simp
    rw [hlen]
    have hassoc : kt ++ ((d0 :: dt) ++ b) = (kt ++ (d0 :: dt)) ++ b := by
      simp [List.append_assoc]
    rw [hassoc, subIdxAux_consume (k0 :: kt) rep (kt ++ (d0 :: dt)) b]
    rfl
  | cons c a' ih =>
    intro ds b hds hdig hb hfree
    have h0 : idxMatch key (c :: (a' ++ key ++ ds ++ b)) = false := by
      simpa using hfree 0 (by simp)
    show subIdxAux key rep 0 ((c :: a') ++ key ++ ds ++ b)
        = (c :: a') ++ rep ++ subIdx key rep b
    rw [List.cons_append, List.cons_append, List.cons_append]
    simp only [subIdxAux, h0, Bool.false_eq_true, if_false]
    rw [List.cons_append, List.cons_append]
    exact congrArg (c :: ·) (ih ds b hds hdig hb fun i hi => by
      simpa using hfree (i + 1) (by simp; omega))

/-- Claim C6.  When the console log's extraction yields checkpoint index k
and the stopping criterion says continue, `job_restart` resubmits with the
launch script rewritten at its restart line (line 385): the `FALSE` restart
flag becomes `TRUE` and the `input_file_index=` field is set to exactly k.
The structural hypotheses pin down the line's one flag occurrence and one
index field. -/
theorem job_restart_rewrites_script
    (outLines script : List (List Char)) (caseGeom : Bool) (k : ℕ)
    (a m₁ ds m₂ : List Char)
    (hk : extractRestartNum outLines = some k)
    (hline : script.get? 384
      = some (a ++ "FALSE".toList ++ (m₁ ++ idxKey ++ ds ++ m₂)))
    (hds : ds ≠ []) (hdig : ∀ c ∈ ds, c.isDigit = true)
    (hm2 : headNotDigit m₂ = true)
    (hFa : ∀ i, i < a.length → ("FALSE".toList).isPrefixOf
        (List.drop i (a ++ "FALSE".toList ++ (m₁ ++ idxKey ++ ds ++ m₂))) = false)
    (hFm : ∀ i, i < (m₁ ++ idxKey ++ ds ++ m₂).length → ("FALSE".toList).isPrefixOf
        (List.drop i (m₁ ++ idxKey ++ ds ++ m₂)) = false)
    (hKa : ∀ i, i < (a ++ "TRUE".toList ++ m₁).length → idxMatch idxKey
        (List.drop i ((a ++ "TRUE".toList ++ m₁) ++ idxKey ++ ds ++ m₂)) = false)
    (hKm : ∀ i, i < m₂.length → idxMatch idxKey (List.drop i m₂) = false) :
    job_restart (some outLines) caseGeom (some true) script
      = .resubmit (script.set 384
          ((a ++ "TRUE".toList ++ m₁) ++ idxKey ++ (Nat.repr k).toList ++ m₂)) := by
  have h1 : replaceAll "FALSE".toList "TRUE".toList
      (a ++ "FALSE".toList ++ (m₁ ++ idxKey ++ ds ++ m₂))
      = a ++ "TRUE".toList ++ (m₁ ++ idxKey ++ ds ++ m₂) := by
    rw [replaceAll_split "FALSE".toList "TRUE".toList (by decide) a _ hFa,
      replaceAll_id "FALSE".toList "TRUE".toList (by decide) _ hFm]
  have hassoc1 : a ++ "TRUE".toList ++ (m₁ ++ idxKey ++ ds ++ m₂)
      = (a ++ "TRUE".toList ++ m₁) ++ idxKey ++ ds ++ m₂ := by
    simp [List.append_assoc]
  have h2 : subIdx idxKey (idxKey ++ (Nat.repr k).toList)
      (a ++ "TRUE".toList ++ (m₁ ++ idxKey ++ ds ++ m₂))
      = (a ++ "TRUE".toList ++ m₁) ++ (idxKey ++ (Nat.repr k).toList) ++ m₂ := by
    rw [hassoc1,
      subIdx_split idxKey (idxKey ++ (Nat.repr k).toList) (by decide)
        (a ++ "TRUE".toList ++ m₁) ds m₂ hds hdig hm2 hKa,
      subIdx_id idxKey (idxKey ++ (Nat.repr k).toList) m₂ hKm]
  have hmod : modifyRestartLine
      (a ++ "FALSE".toList ++ (m₁ ++ idxKey ++ ds ++ m₂)) k
      = (a ++ "TRUE".toList ++ m₁) ++ idxKey ++ (Nat.repr k).toList ++ m₂ := by
    unfold modifyRestartLine
    rw [h1, h2]
    simp [List.append_assoc]
  have hcond : ¬ (caseGeom = true ∧ (some true : Option Bool) = none) := by simp
  simp only [job_restart, hk, hline, if_pos rfl]
  rw [if_neg (by simp), hmod]
  simp

/-- Witness for `job_restart_rewrites_script`: a one-line console log whose
checkpoint line encodes index 7, and a 385-line launch script whose line
385 is `count=10 FALSE input_file_index=0 x`. -/
theorem job_restart_rewrites_script_witness :
    (extractRestartNum ["writing restart file 7".toList] = some 7
      ∧ (List.replicate 384 "#".toList
          ++ ["count=10 ".toList ++ "FALSE".toList
              ++ (" ".toList ++ idxKey ++ "0".toList ++ " x".toList)]).get? 384
        = some ("count=10 ".toList ++ "FALSE".toList
              ++ (" ".toList ++ idxKey ++ "0".toList ++ " x".toList))
      ∧ ("0".toList ≠ [] ∧ ∀ c ∈ "0".toList, c.isDigit = true)
      ∧ headNotDigit " x".toList = true)
    ∧ job_restart (some ["writing restart file 7".toList]) true (some true)
        (List.replicate 384 "#".toList
          ++ ["count=10 ".toList ++ "FALSE".toList
              ++ (" ".toList ++ idxKey ++ "0".toList ++ " x".toList)])
      = .resubmit ((List.replicate 384 "#".toList
          ++ ["count=10 ".toList ++ "FALSE".toList
              ++ (" ".toList ++ idxKey ++ "0".toList ++ " x".toList)]).set 384
          (("count=10 ".toList ++ "TRUE".toList ++ " ".toList)
            ++ idxKey ++ (Nat.repr 7).toList ++ " x".toList)) := by
  refine ⟨⟨by decide, ?_, ⟨by decide, by decide⟩, by decide⟩, ?_⟩
  · set_option maxRecDepth 4000 in decide
  · exact job_restart_rewrites_script _ _ true 7 "count=10 ".toList " ".toList
      "0".toList " x".toList (by decide)
      (by set_option maxRecDepth 4000 in decide)
      (by decide) (by decide) (by decide)
      (by decide) (by decide) (by decide) (by decide)

end SMXSched
